import Mathlib

/-!
Verification of the core of `clclite.c` (a terminal chat/telnet client):
the scrollback buffer, the line-edit buffer, the ANSI terminal renderer
state machine and the blocking send loop, shallowly embedded in Lean.

Modelling conventions:
* C strings become `List Char` (the characters before the terminator).
* The scrollback array `char sbuffer[MAXLINES][MAX_LINE_LENGTH]` becomes a
  `List (List Char)` of length `MAXLINES`.
* `size_t` values are `Nat`; where the C code decrements a `size_t` that may
  be zero, the wraparound modulo 2^64 is made explicit (`decSizeT`).
* C `int` escape parameters wrap modulo 2^32 (`int32wrap`), matching the
  unguarded `*= 10; += digit` accumulation.
* Display side effects (`waddch`, `beep`, `wmove`) are modelled by data:
  the renderer records the characters it paints, `on_text_ansi` counts
  bell rings, `editbuf_display` returns the column handed to `wmove`.
-/

namespace ChatClient

/-- `#define MAXLINES 100` -/
def MAXLINES : Nat := 100

/-- `#define MAX_LINE_LENGTH 1001` -/
def MAX_LINE_LENGTH : Nat := 1001

/-- A stored line: the characters of a C string (terminator not modelled). -/
abbrev Line := List Char

/-- The screen buffer `char sbuffer[MAXLINES][MAX_LINE_LENGTH]`. -/
abbrev SBuffer := List Line

/-- `init_buffer`: every line of the buffer starts empty. -/
def init_buffer : SBuffer := List.replicate MAXLINES []

/-- `scroll_buffer`: `for(y=1; y<MAXLINES; y++) strcpy(buffer[y-1],buffer[y]); buffer[y-1][0]='\0';`
— on a `MAXLINES`-long buffer this shifts every line down by one, losing the
oldest, and blanks the last line. -/
def scroll_buffer (buffer : SBuffer) : SBuffer :=
  buffer.drop 1 ++ [[]]

/-- `add_line_buffer(buffer, line, lastline)`:
scrolls when `lastline == MAXLINES`, truncates the line in place when
`strlen(line) > MAX_LINE_LENGTH - 2` (sets `line[999] = '\0'`, keeping the
first 999 characters), stores it at `lastline`, returns `lastline + 1`. -/
def add_line_buffer (buffer : SBuffer) (line : Line) (lastline : Nat) :
    SBuffer × Nat :=
  let p := if lastline = MAXLINES then (scroll_buffer buffer, lastline - 1)
           else (buffer, lastline)
  let line' := if line.length > MAX_LINE_LENGTH - 2
               then line.take (MAX_LINE_LENGTH - 2) else line
  (p.1.set p.2 line', p.2 + 1)

/-- `add_char_buffer(buffer, c, lastline)`:
scrolls when `lastline == MAXLINES`; finds the end `x` of the current line,
clamps `x` to `MAX_LINE_LENGTH - 2`, writes `c` at `x` and a terminator at
`x+1`; increments `lastline` when `c` is a newline. -/
def add_char_buffer (buffer : SBuffer) (c : Char) (lastline : Nat) :
    SBuffer × Nat :=
  let p := if lastline = MAXLINES then (scroll_buffer buffer, lastline - 1)
           else (buffer, lastline)
  let cur := p.1.getD p.2 []
  let x := cur.length
  let x := if x > MAX_LINE_LENGTH - 2 then MAX_LINE_LENGTH - 2 else x
  let buffer' := p.1.set p.2 (cur.take x ++ [c])
  (buffer', if c = '\n' then p.2 + 1 else p.2)

/-- `print_buffer(buffer, startline, endline)`, reduced to its control flow:
clamp `startline` below by 0, return 1 when `startline > endline`, clamp
`endline` above by `MAXLINES`, then read `buffer[y]` for `y` from `startline`
to `endline` inclusive.  The result is the return code paired with the list
of row indices the loop reads. -/
def print_buffer (startline endline : Int) : Int × List Int :=
  let s := if startline < 0 then 0 else startline
  if s > endline then (1, [])
  else
    let e := if endline > (MAXLINES : Int) then (MAXLINES : Int) else endline
    (0, (List.range (e - s + 1).toNat).map (fun k => s + k))

/-- One scrollback operation, as in the claim: append a character or a line. -/
inductive SBOp where
  | achar (c : Char)
  | aline (l : Line)

/-- Apply one scrollback operation to a (buffer, last-line-index) state. -/
def sbStep (s : SBuffer × Nat) (op : SBOp) : SBuffer × Nat :=
  match op with
  | .achar c => add_char_buffer s.1 c s.2
  | .aline l => add_line_buffer s.1 l s.2

/-- Run a sequence of scrollback operations from the empty buffer
(`init_buffer(sbuffer)`, `last = 0`). -/
def sbRun (ops : List SBOp) : SBuffer × Nat :=
  ops.foldl sbStep (init_buffer, 0)

/-! ### Line editor (`struct EDITBUF` and `editbuf_*`) -/

/-- `#define EDITBUF_MAX 1001` -/
def EDITBUF_MAX : Nat := 1001

/-- `size_t` decrement `--n`, wrapping modulo `2^64` as on the target. -/
def decSizeT (n : Nat) : Nat := (n + (2 ^ 64 - 1)) % 2 ^ 64

/-- `struct EDITBUF`: the character array is a total map from indices, the
`size`, `pos` and `start` fields are the C `size_t` fields. -/
structure EDITBUF where
  buf : Nat → Char
  size : Nat
  pos : Nat
  start : Nat

/-- `memset(&editbuf, 0, sizeof(struct EDITBUF))`. -/
def editbuf_init : EDITBUF :=
  { buf := fun _ => Char.ofNat 0, size := 0, pos := 0, start := 0 }

/-- `editbuf_set(text)`: `snprintf` copies at most `EDITBUF_MAX - 1`
characters into `buf`, but `pos` and `size` are set to `strlen(text)` of the
untruncated argument. -/
def editbuf_set (eb : EDITBUF) (text : List Char) : EDITBUF :=
  { eb with
    buf := fun i => if i < min text.length (EDITBUF_MAX - 1)
                    then text.getD i (Char.ofNat 0) else eb.buf i
    pos := text.length
    size := text.length }

/-- `editbuf_insert(ch)`: no-op at `size == EDITBUF_MAX`; append when the
cursor is at the end; otherwise `memmove` the tail right by one
(`new[i] = old[i-1]` for `pos+1 ≤ i ≤ size`) and write `ch` at `pos`. -/
def editbuf_insert (eb : EDITBUF) (ch : Char) : EDITBUF :=
  if eb.size = EDITBUF_MAX then eb
  else if eb.pos = eb.size then
    { eb with buf := fun i => if i = eb.pos then ch else eb.buf i
              pos := eb.pos + 1, size := eb.size + 1 }
  else
    { eb with
      buf := fun i =>
        if i = eb.pos then ch
        else if eb.pos + 1 ≤ i ∧ i ≤ eb.size then eb.buf (i - 1)
        else eb.buf i
      pos := eb.pos + 1, size := eb.size + 1 }

/-- `editbuf_bs()`: no-op at `pos == 0`; at the end just decrement `pos` and
`size`; otherwise `memmove` the tail left (`new[i] = old[i+1]` for
`pos-1 ≤ i ≤ size-2`) and decrement both. -/
def editbuf_bs (eb : EDITBUF) : EDITBUF :=
  if eb.pos = 0 then eb
  else if eb.pos = eb.size then
    { eb with pos := decSizeT eb.size, size := decSizeT eb.size }
  else
    { eb with
      buf := fun i => if eb.pos - 1 ≤ i ∧ i ≤ eb.size - 2
                      then eb.buf (i + 1) else eb.buf i
      pos := decSizeT eb.pos, size := decSizeT eb.size }

/-- `editbuf_del()`: no-op at `pos == size`; when `pos == size - 1` the code
decrements BOTH `pos` and `size` (`--editbuf.pos; --editbuf.size;`), the
`size_t` decrements wrapping; otherwise `memmove` the tail left
(`new[i] = old[i+1]` for `pos ≤ i ≤ size-2`) and decrement `size`. -/
def editbuf_del (eb : EDITBUF) : EDITBUF :=
  if eb.pos = eb.size then eb
  else if eb.pos = decSizeT eb.size then
    { eb with pos := decSizeT eb.pos, size := decSizeT eb.size }
  else
    { eb with
      buf := fun i => if eb.pos ≤ i ∧ i ≤ eb.size - 2
                      then eb.buf (i + 1) else eb.buf i
      size := decSizeT eb.size }

/-- `editbuf_home()`. -/
def editbuf_home (eb : EDITBUF) : EDITBUF := { eb with pos := 0, start := 0 }

/-- `editbuf_end()`. -/
def editbuf_toEnd (eb : EDITBUF) : EDITBUF := { eb with pos := eb.size }

/-- `editbuf_curleft()`. -/
def editbuf_curleft (eb : EDITBUF) : EDITBUF :=
  if eb.pos > 0 then { eb with pos := eb.pos - 1 } else eb

/-- `editbuf_curright()`. -/
def editbuf_curright (eb : EDITBUF) : EDITBUF :=
  if eb.pos < eb.size then { eb with pos := eb.pos + 1 } else eb

/-- `editbuf_display()` with terminal width `COLS`: sets
`start = pos - COLS` when `pos ≥ COLS`, else `start = 0`; the second
component is the column passed to `wmove(win_input, 0, editbuf.pos)`,
i.e. the on-screen cursor column the code reports. -/
def editbuf_display (eb : EDITBUF) (COLS : Nat) : EDITBUF × Nat :=
  let eb' := if eb.pos ≥ COLS then { eb with start := eb.pos - COLS }
             else { eb with start := 0 }
  (eb', eb'.pos)

/-- One line-editor operation, as listed in the claim. -/
inductive EdOp where
  | eset (text : List Char)
  | ins (ch : Char)
  | bs
  | del
  | curleft
  | curright
  | home
  | toEnd

/-- Apply one line-editor operation. -/
def edStep (eb : EDITBUF) (op : EdOp) : EDITBUF :=
  match op with
  | .eset t => editbuf_set eb t
  | .ins c => editbuf_insert eb c
  | .bs => editbuf_bs eb
  | .del => editbuf_del eb
  | .curleft => editbuf_curleft eb
  | .curright => editbuf_curright eb
  | .home => editbuf_home eb
  | .toEnd => editbuf_toEnd eb

/-- Run a sequence of line-editor operations from the zeroed buffer. -/
def edRun (ops : List EdOp) : EDITBUF := ops.foldl edStep editbuf_init

/-! ### Terminal renderer (`term_state_t`, `struct TERMINAL`,
`send_text_ansi`, `on_term_esc`) -/

/-- `#define TERM_MAX_ESC 16` -/
def TERM_MAX_ESC : Nat := 16

/-- `#define TERM_COLOR_DEFAULT 9` -/
def TERM_COLOR_DEFAULT : Int := 9

/-- C `int` arithmetic wraps modulo `2^32` into `[-2^31, 2^31)`. -/
def int32wrap (n : Int) : Int := (n + 2 ^ 31) % 2 ^ 32 - 2 ^ 31

/-- `typedef enum { TERM_ASCII, TERM_ESC, TERM_ESCRUN } term_state_t;` -/
inductive term_state_t where
  | TERM_ASCII
  | TERM_ESC
  | TERM_ESCRUN
deriving DecidableEq

/-- `struct TERMINAL` (without the telnet `flags` field, which the renderer
never reads): the parse state, the parameter array `esc_buf`, the count
`esc_cnt`, the active color, and — modelling the `waddch(win_main, c)` side
effect — the list of characters painted so far. -/
structure TERMINAL where
  state : term_state_t
  esc_buf : Nat → Int
  esc_cnt : Nat
  color : Int
  out : List Char

/-- The terminal as `main` initialises it: zeroed, `state = TERM_ASCII`,
`color = TERM_COLOR_DEFAULT`. -/
def terminal_init : TERMINAL :=
  { state := .TERM_ASCII, esc_buf := fun _ => 0, esc_cnt := 0,
    color := TERM_COLOR_DEFAULT, out := [] }

/-- `isdigit(c)` for the characters the renderer feeds it. -/
def isdigitc (c : Char) : Bool := '0' ≤ c && c ≤ '9'

/-- One iteration of the `for (i = 0; i < terminal.esc_cnt; ++i)` loop in
`on_term_esc`: parameter `0` resets the color to the default, `31..37` sets
it to `value - 30`, anything else is ignored.  The loop body writes only
`terminal.color`. -/
def esc_apply (a : TERMINAL) (i : Nat) : TERMINAL :=
  if a.esc_buf i = 0 then { a with color := TERM_COLOR_DEFAULT }
  else if 31 ≤ a.esc_buf i ∧ a.esc_buf i ≤ 37 then
    { a with color := a.esc_buf i - 30 }
  else a

/-- `on_term_esc(cmd)`: for command byte `'m'`, walk the accumulated
parameters in order applying `esc_apply`; other command bytes do
nothing. -/
def on_term_esc (t : TERMINAL) (cmd : Char) : TERMINAL :=
  if cmd = 'm' then (List.range t.esc_cnt).foldl esc_apply t else t

/-- One step of `send_text_ansi`, processing a single byte. -/
def send_text_ansi_step (t : TERMINAL) (c : Char) : TERMINAL :=
  match t.state with
  | .TERM_ASCII =>
    if c = Char.ofNat 27 then { t with state := .TERM_ESC }
    else if c ≠ '\x0d' then { t with out := t.out ++ [c] }
    else t
  | .TERM_ESC =>
    if c = '[' then
      { t with state := .TERM_ESCRUN, esc_cnt := 0,
               esc_buf := fun j => if j = 0 then 0 else t.esc_buf j }
    else { t with state := .TERM_ASCII }
  | .TERM_ESCRUN =>
    if isdigitc c then
      let cnt := if t.esc_cnt = 0 then 1 else t.esc_cnt
      let v := int32wrap (t.esc_buf (cnt - 1) * 10)
      { t with esc_cnt := cnt,
               esc_buf := fun j => if j = cnt - 1
                 then int32wrap (v + ((c.toNat : Int) - 48))
                 else t.esc_buf j }
    else if c = ';' then
      if t.esc_cnt < TERM_MAX_ESC then
        { t with esc_cnt := t.esc_cnt + 1,
                 esc_buf := fun j => if j = t.esc_cnt then 0 else t.esc_buf j }
      else t
    else
      { on_term_esc t c with state := .TERM_ASCII }

/-- `send_text_ansi(text, len)`: fold the step over the bytes. -/
def send_text_ansi (t : TERMINAL) (text : List Char) : TERMINAL :=
  text.foldl send_text_ansi_step t

/-! ### Inbound application data (`on_text_ansi`) and outbound writes
(`do_send`) -/

/-- State threaded through `on_text_ansi`: the scrollback buffer, the global
`last` index, and — modelling the `beep()` side effect — the number of bell
rings so far. -/
structure AnsiState where
  sbuffer : SBuffer
  last : Nat
  bells : Nat
deriving DecidableEq

/-- One byte of `on_text_ansi`: a bell (`'\x07'`) only beeps and is skipped;
every other byte (including `'\x0d'` and `'\n'`) goes through
`add_char_buffer`. -/
def on_text_ansi_step (s : AnsiState) (c : Char) : AnsiState :=
  if c = Char.ofNat 7 then { s with bells := s.bells + 1 }
  else
    let p := add_char_buffer s.sbuffer c s.last
    { s with sbuffer := p.1, last := p.2 }

/-- `on_text_ansi(text, len)`. -/
def on_text_ansi (s : AnsiState) (text : List Char) : AnsiState :=
  text.foldl on_text_ansi_step s

/-- The session's initial inbound state: empty buffer, `last = 0`. -/
def ansi_init : AnsiState := { sbuffer := init_buffer, last := 0, bells := 0 }

/-- Linux values of the two transient error codes tested by the client. -/
def EAGAIN : Int := 11

/-- `EINTR`. -/
def EINTR : Int := 4

/-- How a run of `do_send` ends. -/
inductive SendOutcome where
  /-- the loop exits normally with all bytes accepted -/
  | done
  /-- `endwin(); fprintf(...); exit(1)` on a send failure -/
  | fatal
  /-- `endwin(); printf("Disconnected..."); exit(0)` on a zero-byte write -/
  | disconnected
  /-- the supplied script of `send` results ran out with bytes pending -/
  | starved
deriving DecidableEq

/-- `do_send(bytes, len)` driven by a script of `send()` results, each an
(`ret`, `errno`) pair.  Faithful to the source: in the `ret == -1` branch the
code tests `ret != EAGAIN && ret != EINTR` — the return value, not `errno` —
before exiting fatally; `errno` is never consulted. -/
def do_send (script : List (Int × Int)) (len : Nat) : SendOutcome :=
  match script with
  | [] => if len = 0 then .done else .starved
  | (ret, _errno) :: rest =>
    if len = 0 then .done
    else if ret = -1 then
      if ret ≠ EAGAIN ∧ ret ≠ EINTR then .fatal
      else do_send rest len
    else if ret = 0 then .disconnected
    else do_send rest (len - ret.toNat)

/-! ### Helper lemmas -/

/-- Scrolling a full-height buffer keeps its height. -/
lemma scroll_buffer_length (buffer : SBuffer) (h : buffer.length = MAXLINES) :
    (scroll_buffer buffer).length = MAXLINES := by
  simp [scroll_buffer, h, MAXLINES]

/-- `getD` after `set` at the same (in-range) index yields the new value. -/
lemma getD_set_self {α : Type} (l : List α) (i : Nat) (a d : α)
    (h : i < l.length) : (l.set i a).getD i d = a := by
  induction l generalizing i with
  | nil => simp at h
  | cons x xs ih =>
    cases i with
    | zero => simp [List.set]
    | succ j =>
      simp only [List.set, List.getD, List.get?]
      exact ih j (by simpa using h)

/-- One scrollback operation preserves the buffer height and the bound on
the last-line index. -/
lemma sbStep_inv (s : SBuffer × Nat) (op : SBOp)
    (h : s.1.length = MAXLINES ∧ s.2 ≤ MAXLINES) :
    (sbStep s op).1.length = MAXLINES ∧ (sbStep s op).2 ≤ MAXLINES := by
  obtain ⟨hl, hb⟩ := h
  have hsl : (scroll_buffer s.1).length = MAXLINES := scroll_buffer_length s.1 hl
  simp only [MAXLINES] at hl hb hsl ⊢
  cases op with
  | achar c =>
    by_cases hc : s.2 = 100 <;>
      simp [sbStep, add_char_buffer, MAXLINES, hc, List.length_set, hl, hsl] <;>
      split <;> omega
  | aline l =>
    by_cases hc : s.2 = 100 <;>
      simp [sbStep, add_line_buffer, MAXLINES, hc, List.length_set, hl, hsl] <;>
      omega

/-- The scrollback invariant holds after any operation sequence. -/
lemma sbRun_inv (ops : List SBOp) :
    (sbRun ops).1.length = MAXLINES ∧ (sbRun ops).2 ≤ MAXLINES := by
  have main : ∀ (l : List SBOp) (s : SBuffer × Nat),
      s.1.length = MAXLINES ∧ s.2 ≤ MAXLINES →
      (l.foldl sbStep s).1.length = MAXLINES ∧
        (l.foldl sbStep s).2 ≤ MAXLINES := by
    intro l
    induction l with
    | nil => intro s h; exact h
    | cons op rest ih =>
      intro s h
      exact ih (sbStep s op) (sbStep_inv s op h)
  exact main ops (init_buffer, 0) (by constructor <;> simp [init_buffer])

/-! ### Claims -/

set_option maxRecDepth 40000 in
/-- C2: for every sequence of `append_char`/`append_line` operations from
the empty scrollback buffer, the buffer never holds more than `MAXLINES`
(100) lines (the stored array keeps exactly 100 rows and the last-line
index never exceeds 100); and appending `MAXLINES + 1` distinct
single-character lines leaves the buffer holding exactly the last 100 of
those lines in order, the oldest having been evicted first. -/
theorem C2_scrollback_capacity_fifo :
    (∀ ops : List SBOp,
      (sbRun ops).1.length = MAXLINES ∧ (sbRun ops).2 ≤ MAXLINES) ∧
    (sbRun ((List.range (MAXLINES + 1)).map
        (fun k => SBOp.aline [Char.ofNat (48 + k)]))).1
      = (List.range MAXLINES).map (fun k => [Char.ofNat (48 + (k + 1))]) ∧
    (sbRun ((List.range (MAXLINES + 1)).map
        (fun k => SBOp.aline [Char.ofNat (48 + k)]))).2 = MAXLINES := by
  refine ⟨sbRun_inv, ?_, ?_⟩ <;> decide

/-- C1 (failing input): from the empty edit buffer, `insert 'a'`, `home`,
then `delete_forward` hits the `pos == size - 1` branch of `editbuf_del`,
whose `--editbuf.pos` wraps the `size_t` cursor from 0 to `2^64 - 1`; the
claimed invariant `cursor_offset ≤ length` is violated. -/
theorem C1_del_invariant_violation :
    (edRun [EdOp.ins 'a', EdOp.home, EdOp.del]).size = 0 ∧
    (edRun [EdOp.ins 'a', EdOp.home, EdOp.del]).pos = 2 ^ 64 - 1 ∧
    ¬ ((edRun [EdOp.ins 'a', EdOp.home, EdOp.del]).pos ≤
        (edRun [EdOp.ins 'a', EdOp.home, EdOp.del]).size) := by
  refine ⟨by decide, by decide, by decide⟩

/-- C5 (failing input): `print_buffer(buffer, 100, 121)` — reachable from
the main loop with `windowpos = 100` — clamps `endline` only to `MAXLINES`
(100) and its inclusive loop then reads row index 100, one past the last
valid row index `MAXLINES - 1 = 99`. -/
theorem C5_print_buffer_oob :
    (print_buffer 100 121).2 = [100] ∧
    (100 : Int) ∈ (print_buffer 100 121).2 ∧
    ¬ ((100 : Int) ≤ (MAXLINES : Int) - 1) := by
  refine ⟨by decide, by decide, by decide⟩

/-- C9 (failing input): a 1-byte write whose `send()` returns `-1` with
`errno = EINTR` is treated as fatal, because the code compares the return
value `-1` (not `errno`) against `EAGAIN`/`EINTR`; a zero-byte result is an
orderly disconnect, and a fully accepted write completes the loop. -/
theorem C9_transient_error_fatal :
    do_send [(-1, EINTR)] 1 = SendOutcome.fatal ∧
    do_send [(0, 0)] 1 = SendOutcome.disconnected ∧
    do_send [(1, 0)] 1 = SendOutcome.done := by
  refine ⟨by decide, by decide, by decide⟩

/-- C3 (counterexample): after `ESC [ 3 1 m` sets the color register to 1,
feeding `ESC [ m` leaves it at 1 — `'['` resets `esc_cnt` to 0, so
dispatching `'m'` walks zero parameters and never applies the reset.  The
claimed result would be `TERM_COLOR_DEFAULT = 9`. -/
theorem C3_escm_counterexample :
    (send_text_ansi (send_text_ansi terminal_init ['\x1b', '[', '3', '1', 'm'])
        ['\x1b', '[', 'm']).color = 1 ∧
    (1 : Int) ≠ TERM_COLOR_DEFAULT := by
  refine ⟨by decide, by decide⟩

/-- C3 (amended): in Plain state, `ESC [ m` with no digits leaves the style
register unchanged: the `'['` byte resets the parameter list to be empty
(`esc_cnt = 0`, slot 0 zeroed), so dispatching `'m'` applies no parameters;
a style reset requires an explicit 0 parameter — `ESC [ 0 m` does set the
register to the default color. -/
theorem C3_escm_amended (t : TERMINAL)
    (h : t.state = term_state_t.TERM_ASCII) :
    (send_text_ansi t ['\x1b', '[', 'm']).color = t.color ∧
    (send_text_ansi t ['\x1b', '[', 'm']).state = term_state_t.TERM_ASCII ∧
    (send_text_ansi t ['\x1b', '[', '0', 'm']).color = TERM_COLOR_DEFAULT := by
  obtain ⟨st, buf, cnt, col, outp⟩ := t
  simp only at h
  subst h
  refine ⟨?_, ?_, ?_⟩ <;>
    simp [send_text_ansi, send_text_ansi_step, on_term_esc, esc_apply,
      isdigitc, int32wrap, TERM_MAX_ESC, TERM_COLOR_DEFAULT,
      List.range_succ]

/-- C3 (witness for the amended theorem, at the initial terminal). -/
theorem C3_escm_amended_witness :
    (send_text_ansi terminal_init ['\x1b', '[', 'm']).color
        = terminal_init.color ∧
    (send_text_ansi terminal_init ['\x1b', '[', 'm']).state
        = term_state_t.TERM_ASCII ∧
    (send_text_ansi terminal_init ['\x1b', '[', '0', 'm']).color
        = TERM_COLOR_DEFAULT :=
  C3_escm_amended terminal_init rfl

/-- C4 (counterexample): feeding the application bytes `Hello\x0d\n` from
the empty scrollback state completes exactly one line (`last = 1`), but the
line stored is not the five characters `Hello`: `on_text_ansi` special-cases
only the bell byte, so the carriage return and the newline are stored. -/
theorem C4_stored_line_counterexample :
    (on_text_ansi ansi_init ['H', 'e', 'l', 'l', 'o', '\x0d', '\n']).last
        = 1 ∧
    (on_text_ansi ansi_init
        ['H', 'e', 'l', 'l', 'o', '\x0d', '\n']).sbuffer.getD 0 []
      ≠ ['H', 'e', 'l', 'l', 'o'] := by
  refine ⟨by decide, by decide⟩

/-- C4 (amended): after the application bytes `Hello\x0d\n`, the most
recently completed stored line is the seven bytes `Hello\x0d\n` — the
carriage return and the newline are both stored, and the newline advances
the last-line index; the carriage return is stripped only at render time:
`send_text_ansi` paints `Hello\n`, dropping the `\x0d` and nothing else. -/
theorem C4_stored_line_amended :
    (on_text_ansi ansi_init
        ['H', 'e', 'l', 'l', 'o', '\x0d', '\n']).sbuffer.getD 0 []
      = ['H', 'e', 'l', 'l', 'o', '\x0d', '\n'] ∧
    (on_text_ansi ansi_init ['H', 'e', 'l', 'l', 'o', '\x0d', '\n']).last
      = 1 ∧
    (send_text_ansi terminal_init ['H', 'e', 'l', 'l', 'o', '\x0d', '\n']).out
      = ['H', 'e', 'l', 'l', 'o', '\n'] := by
  refine ⟨by decide, by decide, by decide⟩

/-- C8 (counterexample): with the cursor at offset 100 and display width 80,
`editbuf_display` sets the scroll offset to 20 but hands `wmove` the raw
cursor offset 100 — not `cursor − offset = 80` — and 100 is not within the
80-column window. -/
theorem C8_column_counterexample :
    (editbuf_display
        { buf := fun _ => 'a', size := 120, pos := 100, start := 0 } 80).1.start
      = 20 ∧
    (editbuf_display
        { buf := fun _ => 'a', size := 120, pos := 100, start := 0 } 80).2
      = 100 ∧
    (editbuf_display
        { buf := fun _ => 'a', size := 120, pos := 100, start := 0 } 80).2
      ≠ 100 - 20 ∧
    ¬ ((editbuf_display
        { buf := fun _ => 'a', size := 120, pos := 100, start := 0 } 80).2
      < 80) := by
  refine ⟨by decide, by decide, by decide, by decide⟩

/-- C8 (amended): `editbuf_display` sets the scroll offset to
`cursor − width` when `cursor ≥ width` and to 0 otherwise, as claimed, but
the on-screen column it reports is the raw cursor offset `pos` (not
`cursor − offset`), so the reported column lies within the `width`-column
window only when `cursor < width`. -/
theorem C8_column_amended (eb : EDITBUF) (COLS : Nat) :
    (editbuf_display eb COLS).1.start
      = (if eb.pos ≥ COLS then eb.pos - COLS else 0) ∧
    (editbuf_display eb COLS).2 = eb.pos := by
  unfold editbuf_display
  split <;> simp

/-- The escape-dispatch loop body writes only `color`. -/
lemma esc_apply_cnt (a : TERMINAL) (i : Nat) :
    (esc_apply a i).esc_cnt = a.esc_cnt := by
  unfold esc_apply
  split
  · rfl
  · split <;> rfl

/-- Folding `esc_apply` never changes `esc_cnt`. -/
lemma foldl_esc_apply_cnt (l : List Nat) (a : TERMINAL) :
    (l.foldl esc_apply a).esc_cnt = a.esc_cnt := by
  induction l generalizing a with
  | nil => rfl
  | cons x xs ih => rw [List.foldl_cons, ih, esc_apply_cnt]

/-- `on_term_esc` never changes `esc_cnt`. -/
lemma on_term_esc_cnt (t : TERMINAL) (c : Char) :
    (on_term_esc t c).esc_cnt = t.esc_cnt := by
  unfold on_term_esc
  split
  · exact foldl_esc_apply_cnt _ _
  · rfl

/-- One renderer step keeps the parameter count within `TERM_MAX_ESC`. -/
lemma send_step_cnt_le (t : TERMINAL) (c : Char)
    (h : t.esc_cnt ≤ TERM_MAX_ESC) :
    (send_text_ansi_step t c).esc_cnt ≤ TERM_MAX_ESC := by
  obtain ⟨st, buf, cnt, col, outp⟩ := t
  simp only [TERM_MAX_ESC] at h ⊢
  cases st <;> unfold send_text_ansi_step <;> dsimp only <;> repeat' split
  all_goals dsimp only
  all_goals try simp only [TERM_MAX_ESC] at *
  all_goals try omega
  all_goals rw [on_term_esc_cnt]
  all_goals dsimp only
  all_goals omega

/-- The renderer keeps the parameter count within `TERM_MAX_ESC` over any
byte sequence. -/
lemma send_text_ansi_cnt_le (t : TERMINAL) (text : List Char)
    (h : t.esc_cnt ≤ TERM_MAX_ESC) :
    (send_text_ansi t text).esc_cnt ≤ TERM_MAX_ESC := by
  induction text generalizing t with
  | nil => exact h
  | cons c cs ih =>
    rw [send_text_ansi, List.foldl_cons]
    exact ih _ (send_step_cnt_le t c h)

/-- C6: from any terminal state with at most 16 accumulated parameters, the
parameter count stays at most `TERM_MAX_ESC = 16` after processing any byte
sequence; moreover, in `ParameterRun` with the count already at 16, a
semicolon leaves the state entirely unchanged (no new entry, index frozen),
while a digit byte keeps the count at 16, stays in `ParameterRun`, and
mutates the 16th slot to `slot * 10 + digit` (in wrapping C `int`
arithmetic). -/
theorem C6_param_limit (t : TERMINAL) (text : List Char)
    (hcnt : t.esc_cnt ≤ TERM_MAX_ESC) :
    (send_text_ansi t text).esc_cnt ≤ TERM_MAX_ESC ∧
    (t.state = term_state_t.TERM_ESCRUN → t.esc_cnt = TERM_MAX_ESC →
      send_text_ansi_step t ';' = t ∧
      ∀ c : Char, isdigitc c = true →
        (send_text_ansi_step t c).esc_cnt = TERM_MAX_ESC ∧
        (send_text_ansi_step t c).state = term_state_t.TERM_ESCRUN ∧
        (send_text_ansi_step t c).esc_buf (TERM_MAX_ESC - 1)
          = int32wrap (int32wrap (t.esc_buf (TERM_MAX_ESC - 1) * 10)
              + ((c.toNat : Int) - 48))) := by
  refine ⟨send_text_ansi_cnt_le t text hcnt, fun hst h16 => ⟨?_, ?_⟩⟩
  · obtain ⟨st, buf, cnt, col, outp⟩ := t
    simp only at hst h16
    subst hst
    subst h16
    unfold send_text_ansi_step
    simp [isdigitc]
  · intro c hc
    obtain ⟨st, buf, cnt, col, outp⟩ := t
    simp only at hst h16
    subst hst
    subst h16
    unfold send_text_ansi_step
    simp [hc, TERM_MAX_ESC]

/-- A concrete `ParameterRun` terminal with all 16 parameter slots in use. -/
def t16 : TERMINAL :=
  { state := .TERM_ESCRUN, esc_buf := fun _ => 3, esc_cnt := 16,
    color := TERM_COLOR_DEFAULT, out := [] }

/-- C6 (witness, at `t16` and the single byte `'7'`). -/
theorem C6_param_limit_witness :
    (send_text_ansi t16 ['7']).esc_cnt ≤ TERM_MAX_ESC ∧
    (t16.state = term_state_t.TERM_ESCRUN →
      t16.esc_cnt = TERM_MAX_ESC →
      send_text_ansi_step t16 ';' = t16 ∧
      ∀ c : Char, isdigitc c = true →
        (send_text_ansi_step t16 c).esc_cnt = TERM_MAX_ESC ∧
        (send_text_ansi_step t16 c).state = term_state_t.TERM_ESCRUN ∧
        (send_text_ansi_step t16 c).esc_buf (TERM_MAX_ESC - 1)
          = int32wrap (int32wrap (t16.esc_buf (TERM_MAX_ESC - 1) * 10)
              + ((c.toNat : Int) - 48))) :=
  C6_param_limit t16 ['7'] (by decide)

set_option maxRecDepth 40000 in
/-- C7 (counterexample): a line of exactly 1000 characters is not stored
unchanged — `add_line_buffer` truncates any line longer than
`MAX_LINE_LENGTH - 2 = 999` characters, so only 999 of the 1000 survive. -/
theorem C7_truncation_counterexample :
    (add_line_buffer init_buffer (List.replicate 1000 'a') 0).1.getD 0 []
      ≠ List.replicate 1000 'a' ∧
    ((add_line_buffer init_buffer (List.replicate 1000 'a') 0).1.getD
        0 []).length = 999 := by
  refine ⟨by decide, by decide⟩

/-- C7 (amended): `append_line` stores the given text truncated to
`MAX_LINE_LENGTH - 2 = 999` characters (not 1000): a text of 999 or fewer
characters is stored unchanged, and anything longer is silently cut to its
first 999 characters; the line goes into slot `lastline` (or slot 99 after
an eviction scroll) and the returned index is one past that slot. -/
theorem C7_truncation_amended (buffer : SBuffer) (line : Line)
    (lastline : Nat) (hlen : buffer.length = MAXLINES)
    (hlast : lastline ≤ MAXLINES) :
    (add_line_buffer buffer line lastline).1.getD
        (if lastline = MAXLINES then MAXLINES - 1 else lastline) []
      = line.take (MAX_LINE_LENGTH - 2) ∧
    (add_line_buffer buffer line lastline).2
      = (if lastline = MAXLINES then MAXLINES - 1 else lastline) + 1 := by
  have hline : (if line.length > MAX_LINE_LENGTH - 2
      then line.take (MAX_LINE_LENGTH - 2) else line)
      = line.take (MAX_LINE_LENGTH - 2) := by
    split
    · rfl
    · exact (List.take_of_length_le (by omega)).symm
  by_cases hc : lastline = MAXLINES
  · subst hc
    have hp : (if MAXLINES = MAXLINES
          then (scroll_buffer buffer, MAXLINES - 1) else (buffer, MAXLINES))
        = (scroll_buffer buffer, MAXLINES - 1) := if_pos rfl
    have hq : (if MAXLINES = MAXLINES then MAXLINES - 1 else MAXLINES)
        = MAXLINES - 1 := if_pos rfl
    simp only [add_line_buffer, hline, hp, hq]
    refine ⟨getD_set_self _ _ _ _ ?_, by simp⟩
    rw [if_pos trivial]
    dsimp only
    rw [scroll_buffer_length buffer hlen]
    simp [MAXLINES]
  · simp only [add_line_buffer, if_neg hc, hline]
    refine ⟨getD_set_self buffer lastline _ [] (by omega), trivial⟩

/-- C7 (witness, at the empty buffer, line `['a']`, index 0). -/
theorem C7_truncation_amended_witness :
    (add_line_buffer init_buffer ['a'] 0).1.getD
        (if (0 : Nat) = MAXLINES then MAXLINES - 1 else 0) []
      = (['a'] : Line).take (MAX_LINE_LENGTH - 2) ∧
    (add_line_buffer init_buffer ['a'] 0).2
      = (if (0 : Nat) = MAXLINES then MAXLINES - 1 else 0) + 1 :=
  C7_truncation_amended init_buffer ['a'] 0 (by decide) (by decide)

/-- C10: when the current scrollback line is already at the maximal stored
length `MAX_LINE_LENGTH - 1 = 1000`, appending a further non-newline
character overwrites the character at the last writable position
(index `MAX_LINE_LENGTH - 2 = 999`): the stored line becomes its first 999
characters followed by the new character, so its length stays 1000, its
final character is the byte just appended, and the line index does not
advance. -/
theorem C10_overlong_overwrite (buffer : SBuffer) (c : Char) (lastline : Nat)
    (hlen : buffer.length = MAXLINES) (hlast : lastline < MAXLINES)
    (hfull : (buffer.getD lastline []).length = MAX_LINE_LENGTH - 1)
    (hnl : c ≠ '\n') :
    (add_char_buffer buffer c lastline).1.getD lastline []
      = (buffer.getD lastline []).take (MAX_LINE_LENGTH - 2) ++ [c] ∧
    ((add_char_buffer buffer c lastline).1.getD lastline []).length
      = MAX_LINE_LENGTH - 1 ∧
    ((add_char_buffer buffer c lastline).1.getD lastline []).getLast?
      = some c ∧
    (add_char_buffer buffer c lastline).2 = lastline := by
  have hne : lastline ≠ MAXLINES := Nat.ne_of_lt hlast
  have hx : ((buffer.getD lastline []).length > MAX_LINE_LENGTH - 2) := by
    rw [hfull]; simp [MAX_LINE_LENGTH]
  have hget :
      (add_char_buffer buffer c lastline).1.getD lastline []
        = (buffer.getD lastline []).take (MAX_LINE_LENGTH - 2) ++ [c] := by
    simp only [add_char_buffer, if_neg hne, if_pos hx]
    exact getD_set_self buffer lastline _ [] (by omega)
  refine ⟨hget, ?_, ?_, ?_⟩
  · rw [hget, List.length_append, List.length_take]
    simp only [List.length_singleton, MAX_LINE_LENGTH] at hfull ⊢
    omega
  · rw [hget]
    exact List.getLast?_concat _
  · simp only [add_char_buffer, if_neg hne]
    rw [if_neg hnl]

set_option maxRecDepth 40000 in
/-- C10 (witness, at a buffer whose first line is 1000 copies of `'a'`,
appending `'z'`). -/
theorem C10_overlong_overwrite_witness :
    (add_char_buffer (init_buffer.set 0 (List.replicate 1000 'a')) 'z'
        0).1.getD 0 []
      = ((init_buffer.set 0 (List.replicate 1000 'a')).getD 0 []).take
          (MAX_LINE_LENGTH - 2) ++ ['z'] ∧
    ((add_char_buffer (init_buffer.set 0 (List.replicate 1000 'a')) 'z'
        0).1.getD 0 []).length = MAX_LINE_LENGTH - 1 ∧
    ((add_char_buffer (init_buffer.set 0 (List.replicate 1000 'a')) 'z'
        0).1.getD 0 []).getLast? = some 'z' ∧
    (add_char_buffer (init_buffer.set 0 (List.replicate 1000 'a')) 'z'
        0).2 = 0 :=
  C10_overlong_overwrite (init_buffer.set 0 (List.replicate 1000 'a')) 'z' 0
    (by decide) (by decide) (by decide) (by decide)

end ChatClient
